import Mathlib

/-!
# Verification of the Wikipedia pattern-action chatbot (`a10.py`)

A shallow embedding of the chatbot in `src/a10.py`.  Python strings that
only carry text are kept as Lean `String`s; where character-level
reasoning is needed (query normalization, `clean_text`) a Python string
is modelled by its list of characters.  Python exceptions are modelled
by an explicit error type, and fallible functions return `Except`.
External collaborators (the `wikipedia` network client, `BeautifulSoup`,
the regex engine) are passed in as explicit function arguments, so every
definition below is executable and the control flow of the embedded
function is taken verbatim from the source.
-/

namespace A10

/-- The Python exceptions that appear in `a10.py`: `KeyboardInterrupt`
(raised by `bye_action`, caught by `query_loop`), `EOFError` (caught by
`query_loop`), `LookupError` (raised by `get_first_infobox_text`),
`IndexError` (raised by `results[0]` in `get_page_html`; in Python,
`IndexError` is a subclass of `LookupError`) and `AttributeError`
(raised by `get_match`). -/
inductive PyExc where
  | keyboardInterrupt : PyExc
  | eofError : PyExc
  | lookupError : String → PyExc
  | indexError : String → PyExc
  | attributeError : String → PyExc
deriving DecidableEq, Repr

/-- Python's exception-class hierarchy: `IndexError` is a subclass of
`LookupError`, so both are of `LookupError` kind. -/
def isLookupErrorClass : PyExc → Bool
  | PyExc.lookupError _ => true
  | PyExc.indexError _ => true
  | _ => false

/-- The lookup-failure kinds that the spec groups as `LookupFailure`:
"the `LookupError` or `AttributeError` raised by the extraction
helpers" (plus `IndexError`, a `LookupError` subclass). -/
def isLookupFailure : PyExc → Bool
  | PyExc.lookupError _ => true
  | PyExc.indexError _ => true
  | PyExc.attributeError _ => true
  | _ => false

/-- Outcome of calling one action (`a10.py` handler): either it returns
a list of answer strings, or it raises an exception. -/
inductive ActionResult where
  | ok : List String → ActionResult
  | exc : PyExc → ActionResult

/-- A handler: from the capture (list of matched words) to a result. -/
abbrev Action := List String → ActionResult

/-- One dispatch-table entry: a pattern paired with a handler. -/
abbrev Entry := List String × Action

/-- The dispatch table. -/
abbrev Table := List Entry

/-- Outcome of `search_pa_list`: either an answer list is returned, or
an exception raised by the invoked handler propagates out. -/
inductive SearchResult where
  | answers : List String → SearchResult
  | exc : PyExc → SearchResult

/-- Modelled from the spec: the `match` function is imported from a
module `match` that is not part of this repository, so its behaviour is
taken from the spec's Matcher contract (§4.1).  A pattern is a list of
words in which the word `"%"` is the wildcard marker (as used by the
patterns of `pa_list`); a pattern holds at most one wildcard.  With no
wildcard the pattern must equal the query exactly and the capture is
empty.  With a wildcard at position `i`, the literal words before `i`
must align with the query's prefix, the literal words after `i` with
its suffix, and the capture is the run of query words strictly between
the two aligned regions (possibly empty); the match fails if the query
is shorter than the number of literal words or a literal fails to
align. -/
def attemptMatch (pattern source : List String) : Option (List String) :=
  if "%" ∈ pattern then
    let i := pattern.indexOf "%"
    let pre := pattern.take i
    let post := pattern.drop (i + 1)
    if pre.length + post.length ≤ source.length ∧
        source.take pre.length = pre ∧
        source.drop (source.length - post.length) = post then
      some ((source.drop pre.length).take (source.length - pre.length - post.length))
    else
      none
  else if pattern = source then some [] else none

/-- The body of the `for` loop of `search_pa_list` once a pattern has
matched (`a10.py` lines 311-312): call the action on the match and
return its answer, substituting `["No answers"]` for an empty (falsy)
answer list.  An exception raised by the action propagates. -/
def applyAction (act : Action) (mat : List String) : SearchResult :=
  match act mat with
  | ActionResult.ok answer =>
      SearchResult.answers (if answer.isEmpty then ["No answers"] else answer)
  | ActionResult.exc e => SearchResult.exc e

/-- `search_pa_list` (`a10.py` lines 296-314), with the table it scans
made an explicit argument (the source reads the global `pa_list`).
Walks the entries in order; on the first pattern that matches it calls
that entry's action and returns, and if no entry matches it returns
`["I don\x27t understand"]`. -/
def search_pa_list (table : Table) (src : List String) : SearchResult :=
  match table with
  | [] => SearchResult.answers ["I don\x27t understand"]
  | (pat, act) :: rest =>
    match attemptMatch pat src with
    | some mat => applyAction act mat
    | none => search_pa_list rest src

/-- What one iteration of `query_loop` (`a10.py` lines 322-333) does
with the outcome of `search_pa_list`. -/
inductive LoopStep where
  | continued : List String → LoopStep
  | exitLoop : String → LoopStep
  | crash : PyExc → LoopStep
deriving Repr

/-- One iteration of `query_loop`'s `while True` body, as a function of
the result of `search_pa_list` on the current query.  The `try` block
prints each answer and the loop continues; `except (KeyboardInterrupt,
EOFError)` breaks out of the loop, after which the farewell
`"\nSo long!\n"` is printed; any other exception is not caught and
propagates out of `query_loop`, aborting the process. -/
def query_loop_body (r : SearchResult) : LoopStep :=
  match r with
  | SearchResult.answers ans => LoopStep.continued ans
  | SearchResult.exc PyExc.keyboardInterrupt => LoopStep.exitLoop "\nSo long!\n"
  | SearchResult.exc PyExc.eofError => LoopStep.exitLoop "\nSo long!\n"
  | SearchResult.exc e => LoopStep.crash e

/-- `true` exactly when the loop goes on to prompt for the next query. -/
def survivesQuery : LoopStep → Bool
  | LoopStep.continued _ => true
  | _ => false

/-- `bye_action` (`a10.py` lines 273-274): ignores its argument and
raises `KeyboardInterrupt`. -/
def bye_action : Action := fun _ => ActionResult.exc PyExc.keyboardInterrupt

/-- `get_page_html` (`a10.py` lines 11-21).  The collaborators are
explicit: `wsearch` is `wikipedia.search` and `phtml` is
`fun r => WikipediaPage(r).html()` (abstracted as a total function; its
own network failures are out of scope).  `results[0]` on an empty
Python list raises `IndexError("list index out of range")`. -/
def get_page_html (wsearch : String → List String) (phtml : String → String)
    (title : String) : Except PyExc String :=
  match wsearch title with
  | [] => Except.error (PyExc.indexError "list index out of range")
  | r :: _ => Except.ok (phtml r)

/-- `get_first_infobox_text` (`a10.py` lines 24-38), with the
BeautifulSoup call abstracted: `results` is the list of texts of the
elements of class `infobox`.  Raises `LookupError("Page has no
infobox")` when there are none. -/
def get_first_infobox_text (results : List String) : Except PyExc String :=
  match results with
  | [] => Except.error (PyExc.lookupError "Page has no infobox")
  | r :: _ => Except.ok r

/-- `get_match` (`a10.py` lines 56-76), with the regex engine
abstracted: `searchResult` is what `p.search(text)` returned (`none`
for no match).  On no match it raises `AttributeError(error_text)`. -/
def get_match (searchResult : Option String) (error_text : String) :
    Except PyExc String :=
  match searchResult with
  | none => Except.error (PyExc.attributeError error_text)
  | some m => Except.ok m

/-! ## Construction of the dispatch table `pa_list`

The list literal at `a10.py` lines 284-293 is meant to hold eight
`(pattern, action)` pairs, but the entry on line 291 is not followed by
a comma.  Python therefore parses the two adjacent parenthesised
expressions on lines 291-292 as a single element: a *call* of the tuple
`("who was the first lady of %".split(), first_lady)` with the
arguments `["bye"], bye_action`.  We model the literal element by
element, distinguishing a plain pair from such a fused call, and
evaluate the elements left to right as Python does. -/

/-- The named handler functions of `a10.py`, as referenced by the
`pa_list` literal. -/
inductive ActionName where
  | president : ActionName
  | war_result : ActionName
  | president_name : ActionName
  | founding : ActionName
  | everything : ActionName
  | happen : ActionName
  | first_lady : ActionName
  | bye_action : ActionName
deriving DecidableEq, Repr

/-- One syntactic element of the `pa_list` list literal: either a
`(pattern, action)` tuple, or — the shape produced by the missing comma
on line 291 — that tuple immediately applied, call-style, to the
pattern and action of the following line. -/
inductive PaListElem where
  | pair : List String → ActionName → PaListElem
  | pairCalledOnPair : List String → ActionName → List String → ActionName → PaListElem
deriving DecidableEq, Repr

/-- Raised during evaluation of the `pa_list` literal. -/
inductive PyEvalError where
  | typeError : String → PyEvalError
deriving DecidableEq, Repr

/-- Python evaluation of one element of the literal: a tuple display
evaluates to the pair, while calling a tuple raises
`TypeError: 'tuple' object is not callable`. -/
def evalPaListElem : PaListElem → Except PyEvalError (List String × ActionName)
  | PaListElem.pair pat act => Except.ok (pat, act)
  | PaListElem.pairCalledOnPair _ _ _ _ =>
      Except.error (PyEvalError.typeError "\x27tuple\x27 object is not callable")

/-- The `pa_list` literal of `a10.py` lines 284-293, element by element
as Python parses it: the six comma-terminated entries of lines 285-290,
then the single fused element produced by lines 291-292 (line 291 lacks
its trailing comma). -/
def pa_list_literal : List PaListElem :=
  [PaListElem.pair ["which", "number", "president", "was", "%"] ActionName.president,
   PaListElem.pair ["what", "was", "the", "result", "of", "the", "%"] ActionName.war_result,
   PaListElem.pair ["when", "was", "the", "birthday", "of", "%"] ActionName.president_name,
   PaListElem.pair ["when", "was", "the", "founding", "of", "%"] ActionName.founding,
   PaListElem.pair ["tell", "me", "everything", "about", "%"] ActionName.everything,
   PaListElem.pair ["what", "was", "the", "location", "of", "%"] ActionName.happen,
   PaListElem.pairCalledOnPair ["who", "was", "the", "first", "lady", "of", "%"]
     ActionName.first_lady ["bye"] ActionName.bye_action]

/-- Evaluating the `pa_list` literal at module import: the elements are
evaluated in order and the first exception aborts the construction. -/
def construct_pa_list : Except PyEvalError (List (List String × ActionName)) :=
  pa_list_literal.mapM evalPaListElem

/-! ## Query normalization (`query_loop`, line 325)

The raw input line is modelled by its list of characters.  Python's
`str.split()` with no argument splits on runs of whitespace and yields
no empty words; `str.replace("?", "")` deletes every question mark;
`str.lower()` lowercases each character (for the ASCII text at hand,
`Char.toLower`). -/

/-- Accumulator pass for `splitWhitespace`: `cur` holds the reversed
characters of the word being read. -/
def splitWhitespaceAux : List Char → List Char → List (List Char)
  | cur, [] => if cur = [] then [] else [cur.reverse]
  | cur, c :: cs =>
    if c.isWhitespace then
      if cur = [] then splitWhitespaceAux [] cs
      else cur.reverse :: splitWhitespaceAux [] cs
    else splitWhitespaceAux (c :: cur) cs

/-- Python `str.split()` (no separator): split on runs of whitespace,
yielding the maximal non-whitespace words, with no empty words. -/
def splitWhitespace (l : List Char) : List (List Char) :=
  splitWhitespaceAux [] l

/-- `query = input("Your query? ").replace("?", "").lower().split()`
(`a10.py` line 325): delete every `?`, lowercase, split on whitespace.
The resulting words are the token strings handed to `search_pa_list`. -/
def tokenize_query (line : List Char) : List String :=
  (splitWhitespace ((line.filter (fun c => c ≠ '?')).map Char.toLower)).map
    (fun w => String.mk w)

/-- The normalization described by the claim (not by the code):
lowercase, strip a *single trailing* question mark, leave all other
characters intact, split on whitespace. -/
def tokenize_query_claimed (line : List Char) : List String :=
  let low := line.map Char.toLower
  let stripped := if low.getLast? = some '?' then low.dropLast else low
  (splitWhitespace stripped).map (fun w => String.mk w)

/-- The amended normalization: the line lowercased, with *every*
question mark removed (wherever it occurs), split on whitespace. -/
def tokenize_query_amended (line : List Char) : List String :=
  (splitWhitespace ((line.map Char.toLower).filter (fun c => c ≠ '?'))).map
    (fun w => String.mk w)

/-! ## `clean_text` (`a10.py` lines 41-53) -/

/-- Membership in Python's `string.printable`: the ASCII characters
`0x20`-`0x7E` (digits, letters, punctuation, space) together with the
whitespace characters `\t`, `\n`, `\x0b`, `\x0c`, `\r` (codes 9-13). -/
def inPrintable (c : Char) : Bool :=
  (32 ≤ c.toNat && c.toNat ≤ 126) || (9 ≤ c.toNat && c.toNat ≤ 13)

/-- `re.sub(t+, t, s)` for a single character `t`: every maximal run of
one or more `t`s is replaced by a single `t` (the regex engine scans
left to right and `+` is greedy, so each match is a maximal run). -/
def collapseRuns (t : Char) : List Char → List Char
  | [] => []
  | c :: cs =>
    if c = t then t :: collapseRuns t (cs.dropWhile (fun d => d = t))
    else c :: collapseRuns t cs
termination_by l => l.length
decreasing_by
  · simp only [List.length_cons]
    exact Nat.lt_succ_of_le (List.dropWhile_sublist _).length_le
  · simp only [List.length_cons]
    exact Nat.lt_succ_of_le (Nat.le_refl _)

/-- `clean_text` (`a10.py` lines 41-53): replace every character not in
`string.printable` by a space, then collapse runs of spaces, then
collapse runs of newlines. -/
def clean_text (text : List Char) : List Char :=
  let only_ascii := text.map (fun c => if inPrintable c then c else ' ')
  let no_dup_spaces := collapseRuns ' ' only_ascii
  collapseRuns '\n' no_dup_spaces

/-- No two consecutive occurrences of the character `t`. -/
def noDoubled (t : Char) : List Char → Prop
  | c₁ :: c₂ :: rest => (c₁ ≠ t ∨ c₂ ≠ t) ∧ noDoubled t (c₂ :: rest)
  | _ => True

/-! ## Lemmas about the dispatcher -/

/-- Entries whose pattern does not match are skipped without effect. -/
lemma search_skip_unmatched (t₁ t₂ : Table) (src : List String)
    (h : ∀ e ∈ t₁, attemptMatch e.1 src = none) :
    search_pa_list (t₁ ++ t₂) src = search_pa_list t₂ src := by
  induction t₁ with
  | nil => rfl
  | cons e t ih =>
    obtain ⟨pat, act⟩ := e
    have hp : attemptMatch pat src = none := h _ (List.mem_cons_self _ _)
    simp only [List.cons_append, search_pa_list, hp]
    exact ih fun e he => h e (List.mem_cons_of_mem _ he)

/-- **C1**: constructing the dispatch table `pa_list` at startup does
*not* succeed: the missing comma at the end of `a10.py` line 291 turns
lines 291-292 into a call of a tuple, so evaluating the `pa_list`
literal at module import raises `TypeError: 'tuple' object is not
callable` instead of producing a list ending in the
`(["bye"], bye_action)` entry. -/
theorem construct_pa_list_raises_type_error :
    construct_pa_list =
      Except.error (PyEvalError.typeError "\x27tuple\x27 object is not callable") := rfl

/-- **C2** (counterexample): a handler lookup failure — here the
`LookupError("Page has no infobox")` raised by
`get_first_infobox_text` — is *not* caught by the session loop: the
iteration does not continue with the next query. -/
theorem query_loop_lookup_failure_not_survived :
    survivesQuery
      (query_loop_body (SearchResult.exc (PyExc.lookupError "Page has no infobox"))) =
      false := rfl

/-- **C2** (amended): `query_loop` catches only `KeyboardInterrupt` and
`EOFError`; a lookup failure (`LookupError`, `IndexError` or
`AttributeError`) raised by a matched handler propagates uncaught out
of the session loop and terminates the process. -/
theorem query_loop_lookup_failure_crashes (e : PyExc)
    (h : isLookupFailure e = true) :
    query_loop_body (SearchResult.exc e) = LoopStep.crash e := by
  cases e <;> simp_all [isLookupFailure, query_loop_body]

/-- Witness for `query_loop_lookup_failure_crashes` at the
`AttributeError` raised by `get_match`. -/
theorem query_loop_lookup_failure_crashes_witness :
    query_loop_body
        (SearchResult.exc (PyExc.attributeError
          "Page doesn\x27t appear to have the property you\x27re expecting")) =
      LoopStep.crash (PyExc.attributeError
        "Page doesn\x27t appear to have the property you\x27re expecting") :=
  query_loop_lookup_failure_crashes _ rfl

/-- **C3**: if no pattern of the table matches the token list,
`search_pa_list` returns exactly `["I don't understand"]`. -/
theorem search_pa_list_no_match (table : Table) (src : List String)
    (h : ∀ e ∈ table, attemptMatch e.1 src = none) :
    search_pa_list table src = SearchResult.answers ["I don\x27t understand"] := by
  have := search_skip_unmatched table [] src h
  rwa [List.append_nil] at this

/-- Witness for `search_pa_list_no_match`: the spec's scenario query
against a one-entry table whose pattern does not match. -/
theorem search_pa_list_no_match_witness :
    search_pa_list [(["bye"], bye_action)]
        ["what", "is", "the", "meaning", "of", "life"] =
      SearchResult.answers ["I don\x27t understand"] :=
  search_pa_list_no_match [(["bye"], bye_action)]
    ["what", "is", "the", "meaning", "of", "life"] (by decide)

/-- **C4**: if the first matching entry's handler returns an empty
answer list, `search_pa_list` returns exactly `["No answers"]` — not
the empty list — and this sentinel differs from the not-understood
sentinel. -/
theorem search_pa_list_empty_answer (t₁ rest : Table) (pat : List String)
    (act : Action) (src cap : List String)
    (h₁ : ∀ e ∈ t₁, attemptMatch e.1 src = none)
    (h₂ : attemptMatch pat src = some cap)
    (h₃ : act cap = ActionResult.ok []) :
    search_pa_list (t₁ ++ (pat, act) :: rest) src =
        SearchResult.answers ["No answers"] ∧
      ["No answers"] ≠ ([] : List String) ∧
      "No answers" ≠ "I don\x27t understand" := by
  refine ⟨?_, by decide, by decide⟩
  rw [search_skip_unmatched t₁ _ src h₁]
  simp [search_pa_list, h₂, applyAction, h₃]

/-- Witness for `search_pa_list_empty_answer`: a concrete handler that
answers with the empty list. -/
theorem search_pa_list_empty_answer_witness :
    search_pa_list [(["test", "%"], fun _ => ActionResult.ok [])]
        ["test", "a"] = SearchResult.answers ["No answers"] ∧
      ["No answers"] ≠ ([] : List String) ∧
      "No answers" ≠ "I don\x27t understand" :=
  search_pa_list_empty_answer [] [] ["test", "%"]
    (fun _ => ActionResult.ok []) ["test", "a"] ["a"]
    (by decide) (by decide) rfl

/-- **C5**: first-match-wins.  If every entry before `(pat, act)` fails
to match and `pat` matches `src` with capture `cap`, the dispatcher
returns the (normalized) result of `act` on `cap` — whatever the
remaining entries `rest` are, so a later matching entry's handler can
never influence the outcome (the embedding is pure, so "never invoked"
is exactly "the result does not depend on `rest`"). -/
theorem search_pa_list_first_match_wins (t₁ rest : Table)
    (pat : List String) (act : Action) (src cap : List String)
    (h₁ : ∀ e ∈ t₁, attemptMatch e.1 src = none)
    (h₂ : attemptMatch pat src = some cap) :
    search_pa_list (t₁ ++ (pat, act) :: rest) src = applyAction act cap := by
  rw [search_skip_unmatched t₁ _ src h₁]
  simp [search_pa_list, h₂]

/-- Witness for `search_pa_list_first_match_wins`: the table's tail
holds a second entry whose pattern also matches, with a different
handler; the result is still the first handler's answer. -/
theorem search_pa_list_first_match_wins_witness :
    search_pa_list
        [(["zzz"], fun _ => ActionResult.ok ["zero"]),
         (["hello", "%"], fun _ => ActionResult.ok ["first"]),
         (["hello", "%"], fun _ => ActionResult.ok ["second"])]
        ["hello", "world"] =
      applyAction (fun _ => ActionResult.ok ["first"]) ["world"] :=
  search_pa_list_first_match_wins
    [(["zzz"], fun _ => ActionResult.ok ["zero"])]
    [(["hello", "%"], fun _ => ActionResult.ok ["second"])]
    ["hello", "%"] (fun _ => ActionResult.ok ["first"])
    ["hello", "world"] ["world"] (by decide) (by decide)

/-- **C7**: in the program as written the query `["bye"]` is never
dispatched at all — evaluating the `pa_list` literal raises `TypeError`
at module import (first conjunct), before `query_loop` (called at
module level, line 339) can read a query.  The remaining conjuncts
evaluate the pieces of the claim that are genuinely in the source:
the pattern `["bye"]` matches the query `["bye"]` with empty capture,
invoking `bye_action` on it raises `KeyboardInterrupt` — a signal
distinct from every answer list and not a lookup-failure kind — and on
that signal the session loop breaks and prints the farewell.  So the
claim describes the evident intent, defeated by the missing comma of
line 291. -/
theorem bye_dispatch_unreachable :
    (∀ table, construct_pa_list ≠ Except.ok table) ∧
      attemptMatch ["bye"] ["bye"] = some [] ∧
      applyAction bye_action [] = SearchResult.exc PyExc.keyboardInterrupt ∧
      query_loop_body (SearchResult.exc PyExc.keyboardInterrupt) =
        LoopStep.exitLoop "\nSo long!\n" ∧
      (∀ ans : List String,
        SearchResult.exc PyExc.keyboardInterrupt ≠ SearchResult.answers ans) ∧
      isLookupFailure PyExc.keyboardInterrupt = false := by
  refine ⟨?_, rfl, rfl, rfl, fun _ h => SearchResult.noConfusion h, rfl⟩
  intro table h
  rw [show construct_pa_list = Except.error
      (PyEvalError.typeError "\x27tuple\x27 object is not callable") from rfl] at h
  exact Except.noConfusion h

/-- **C8**: when the document search returns no result, `get_page_html`
fails with the `IndexError` raised by `results[0]` — a signalled
exception of Python's `LookupError` (NotFound) class. -/
theorem get_page_html_no_results (wsearch : String → List String)
    (phtml : String → String) (title : String) (h : wsearch title = []) :
    get_page_html wsearch phtml title =
        Except.error (PyExc.indexError "list index out of range") ∧
      isLookupErrorClass (PyExc.indexError "list index out of range") = true := by
  refine ⟨?_, rfl⟩
  simp [get_page_html, h]

/-- Witness for `get_page_html_no_results`: a search collaborator that
finds nothing. -/
theorem get_page_html_no_results_witness :
    get_page_html (fun _ => []) (fun _ => "") "zxqzxq" =
        Except.error (PyExc.indexError "list index out of range") ∧
      isLookupErrorClass (PyExc.indexError "list index out of range") = true :=
  get_page_html_no_results (fun _ => []) (fun _ => "") "zxqzxq" rfl

/-! ## The one-wildcard matcher characterization -/

/-- First index of `a` in `pre ++ a :: post` when `a` is not in `pre`. -/
lemma indexOf_append_cons (a : String) (pre post : List String)
    (h : a ∉ pre) : (pre ++ a :: post).indexOf a = pre.length := by
  induction pre with
  | nil => simp [List.indexOf_cons]
  | cons b t ih =>
    have hb : (b == a) = false :=
      beq_eq_false_iff_ne.mpr fun hba => h (hba ▸ List.mem_cons_self b t)
    simp only [List.cons_append, List.indexOf_cons, hb, cond_false,
      List.length_cons]
    rw [ih fun hm => h (List.mem_cons_of_mem _ hm)]

/-- **C9**: for a pattern with exactly one wildcard — `pre ++ "%" ::
post` with no `"%"` among the literals — and a query at least as long
as the number of literal words, the match succeeds with capture `cap`
exactly when the query is the literal prefix, then `cap`, then the
literal suffix; in particular `cap` is the run of query words strictly
between the aligned regions, and it may be empty. -/
theorem attemptMatch_one_wildcard (pre post source cap : List String)
    (hpre : "%" ∉ pre) (hpost : "%" ∉ post)
    (hlen : pre.length + post.length ≤ source.length) :
    attemptMatch (pre ++ "%" :: post) source = some cap ↔
      source = pre ++ cap ++ post := by
  have hmem : "%" ∈ pre ++ "%" :: post :=
    List.mem_append_right _ (List.mem_cons_self _ _)
  have hidx : (pre ++ "%" :: post).indexOf "%" = pre.length :=
    indexOf_append_cons "%" pre post hpre
  have htake : (pre ++ "%" :: post).take pre.length = pre :=
    List.take_left pre ("%" :: post)
  have hdrop : (pre ++ "%" :: post).drop (pre.length + 1) = post := by
    rw [show pre ++ "%" :: post = (pre ++ ["%"]) ++ post by simp,
      show pre.length + 1 = (pre ++ ["%"]).length by simp]
    exact List.drop_left _ _
  have key : attemptMatch (pre ++ "%" :: post) source =
      if pre.length + post.length ≤ source.length ∧
          source.take pre.length = pre ∧
          source.drop (source.length - post.length) = post then
        some ((source.drop pre.length).take
          (source.length - pre.length - post.length))
      else none := by
    simp only [attemptMatch, hmem, if_true, hidx, htake, hdrop]
  rw [key]
  by_cases hc : source.take pre.length = pre ∧
      source.drop (source.length - post.length) = post
  · obtain ⟨ht, hd⟩ := hc
    rw [if_pos ⟨hlen, ht, hd⟩]
    have e1 : pre ++ source.drop pre.length = source := by
      conv_rhs => rw [← List.take_append_drop pre.length source]
      rw [ht]
    have e2 : (source.drop pre.length).take
          (source.length - pre.length - post.length) ++
          source.drop (source.length - post.length) =
        source.drop pre.length := by
      conv_rhs => rw [← List.take_append_drop
        (source.length - pre.length - post.length) (source.drop pre.length)]
      rw [List.drop_drop,
        show pre.length + (source.length - pre.length - post.length) =
          source.length - post.length by omega]
    have hsrc : source = pre ++
        ((source.drop pre.length).take
          (source.length - pre.length - post.length)) ++ post :=
      calc source = pre ++ source.drop pre.length := e1.symm
        _ = pre ++ ((source.drop pre.length).take
              (source.length - pre.length - post.length) ++
              source.drop (source.length - post.length)) := by rw [e2]
        _ = pre ++ ((source.drop pre.length).take
              (source.length - pre.length - post.length) ++ post) := by
              rw [hd]
        _ = pre ++ ((source.drop pre.length).take
              (source.length - pre.length - post.length)) ++ post :=
              (List.append_assoc _ _ _).symm
    constructor
    · intro h
      rw [← Option.some.inj h]
      exact hsrc
    · intro h
      have h2 : pre ++ ((source.drop pre.length).take
          (source.length - pre.length - post.length)) ++ post =
          pre ++ cap ++ post := by rw [← hsrc]; exact h
      have h3 := List.append_cancel_right h2
      have h4 := List.append_cancel_left h3
      rw [h4]
  · rw [if_neg fun hh => hc ⟨hh.2.1, hh.2.2⟩]
    constructor
    · intro h
      exact absurd h (by simp)
    · intro h
      exfalso
      apply hc
      subst h
      constructor
      · rw [List.append_assoc]
        exact List.take_left pre (cap ++ post)
      · rw [show (pre ++ cap ++ post).length - post.length =
            (pre ++ cap).length by
          simp only [List.length_append]
          omega]
        exact List.drop_left _ _

/-- Witness for `attemptMatch_one_wildcard`: the spec's scenario —
pattern `["when","was","%","born"]`, query
`["when","was","barack","obama","born"]`, capture `["barack","obama"]`. -/
theorem attemptMatch_one_wildcard_witness :
    attemptMatch (["when", "was"] ++ "%" :: ["born"])
        ["when", "was", "barack", "obama", "born"] =
        some ["barack", "obama"] ↔
      ["when", "was", "barack", "obama", "born"] =
        ["when", "was"] ++ ["barack", "obama"] ++ ["born"] :=
  attemptMatch_one_wildcard ["when", "was"] ["born"]
    ["when", "was", "barack", "obama", "born"] ["barack", "obama"]
    (by decide) (by decide) (by decide)

/-! ## Query normalization -/

/-- Lowercasing maps no character other than `?` to `?`. -/
lemma toLower_eq_qmark_iff (c : Char) : c.toLower = '?' ↔ c = '?' := by
  constructor
  · intro h
    by_contra hc
    simp only [Char.toLower] at h
    split at h
    · rename_i hcond
      obtain ⟨h1, h2⟩ := hcond
      generalize hg : c.toNat = n at h h1 h2
      interval_cases n <;> exact absurd h (by decide)
    · exact hc h
  · intro h
    subst h
    rfl

/-- Deleting question marks commutes with lowercasing. -/
lemma filter_qmark_map_toLower (l : List Char) :
    (l.filter (fun c => c ≠ '?')).map Char.toLower =
      (l.map Char.toLower).filter (fun c => c ≠ '?') := by
  rw [List.filter_map]
  congr 1
  refine List.filter_congr fun c _ => ?_
  simp only [Function.comp_apply]
  exact (decide_eq_decide.mpr (not_congr (toLower_eq_qmark_iff c))).symm

/-- **C6** (counterexample): on the input line `"who? is x"` the code
deletes the interior question mark as well, so the token list passed to
`search_pa_list` is `["who", "is", "x"]`, not the
`["who?", "is", "x"]` that stripping only a single trailing question
mark would give. -/
theorem tokenize_query_interior_qmark :
    tokenize_query ("who? is x".toList) = ["who", "is", "x"] ∧
      tokenize_query_claimed ("who? is x".toList) = ["who?", "is", "x"] ∧
      tokenize_query ("who? is x".toList) ≠
        tokenize_query_claimed ("who? is x".toList) :=
  ⟨by decide, by decide, by decide⟩

/-- **C6** (amended): for every raw input line, the token list passed
to `search_pa_list` equals the line lowercased, with *every* question
mark removed wherever it occurs, and split on whitespace. -/
theorem tokenize_query_eq_amended (line : List Char) :
    tokenize_query line = tokenize_query_amended line := by
  unfold tokenize_query tokenize_query_amended
  rw [filter_qmark_map_toLower]

/-! ## Idempotence of `clean_text` -/

lemma collapseRuns_nil (t : Char) : collapseRuns t [] = [] := by
  simp [collapseRuns]

/-- `collapseRuns` keeps the head of the list. -/
lemma collapseRuns_cons (t c : Char) (cs : List Char) :
    collapseRuns t (c :: cs) =
      c :: collapseRuns t
        (if c = t then cs.dropWhile (fun d => d = t) else cs) := by
  by_cases h : c = t
  · subst h
    simp [collapseRuns]
  · simp [collapseRuns, h]

/-- The tail of a `noDoubled` list is `noDoubled`. -/
lemma noDoubled_tail {t c : Char} {l : List Char}
    (h : noDoubled t (c :: l)) : noDoubled t l := by
  cases l with
  | nil => trivial
  | cons d ds => exact h.2

/-- Extend a `noDoubled` list on the left. -/
lemma noDoubled_cons {t c : Char} {l : List Char} (h : noDoubled t l)
    (hd : ∀ d ds, l = d :: ds → c ≠ t ∨ d ≠ t) : noDoubled t (c :: l) := by
  cases l with
  | nil => trivial
  | cons d ds => exact ⟨hd d ds rfl, h⟩

/-- A suffix of a `noDoubled` list is `noDoubled`. -/
lemma noDoubled_suffix {t : Char} {l₁ l₂ : List Char} (hs : l₂ <:+ l₁)
    (h : noDoubled t l₁) : noDoubled t l₂ := by
  obtain ⟨pre, rfl⟩ := hs
  induction pre with
  | nil => exact h
  | cons c cs ih => exact ih (noDoubled_tail h)

/-- Every character of `collapseRuns t l` comes from `l`. -/
lemma mem_collapseRuns {t a : Char} {l : List Char}
    (h : a ∈ collapseRuns t l) : a ∈ l := by
  induction l using collapseRuns.induct t with
  | case1 => simp [collapseRuns] at h
  | case2 cs ih =>
    rw [collapseRuns_cons, if_pos rfl] at h
    rcases List.mem_cons.mp h with h1 | h2
    · exact h1 ▸ List.mem_cons_self _ _
    · exact List.mem_cons_of_mem _
        ((List.dropWhile_sublist _).subset (ih h2))
  | case3 c cs hc ih =>
    rw [collapseRuns_cons, if_neg hc] at h
    rcases List.mem_cons.mp h with h1 | h2
    · exact h1 ▸ List.mem_cons_self _ _
    · exact List.mem_cons_of_mem _ (ih h2)

/-- `dropWhile` either empties the list or exposes a head failing the
predicate. -/
lemma dropWhile_shape (p : Char → Bool) (l : List Char) :
    l.dropWhile p = [] ∨
      ∃ d ds, l.dropWhile p = d :: ds ∧ p d = false := by
  induction l with
  | nil => exact Or.inl rfl
  | cons c cs ih =>
    by_cases h : p c
    · rw [List.dropWhile_cons_of_pos h]
      exact ih
    · rw [List.dropWhile_cons_of_neg h]
      exact Or.inr ⟨c, cs, rfl, Bool.of_not_eq_true h⟩

/-- The output of `collapseRuns t` holds no two consecutive `t`s. -/
lemma noDoubled_collapseRuns (t : Char) (l : List Char) :
    noDoubled t (collapseRuns t l) := by
  induction l using collapseRuns.induct t with
  | case1 => rw [collapseRuns_nil]; trivial
  | case2 cs ih =>
    rw [collapseRuns_cons, if_pos rfl]
    refine noDoubled_cons ih fun d ds heq => ?_
    rcases dropWhile_shape (fun d => d = t) cs with h0 | ⟨d', ds', hd', hp⟩
    · rw [h0] at heq
      simp [collapseRuns] at heq
    · rw [hd', collapseRuns_cons] at heq
      refine Or.inr fun hdt => ?_
      rw [List.cons.injEq] at heq
      rw [heq.1, hdt] at hp
      simp at hp
  | case3 c cs hc ih =>
    rw [collapseRuns_cons, if_neg hc]
    exact noDoubled_cons ih fun d ds _ => Or.inl hc

/-- `collapseRuns t` is the identity on lists with no doubled `t`. -/
lemma collapseRuns_of_noDoubled {t : Char} {l : List Char}
    (h : noDoubled t l) : collapseRuns t l = l := by
  induction l with
  | nil => exact collapseRuns_nil t
  | cons c cs ih =>
    by_cases hct : c = t
    · subst hct
      cases cs with
      | nil => simp [collapseRuns]
      | cons d ds =>
        have hdt : d ≠ c := by
          rcases h.1 with h1 | h1
          · exact absurd rfl h1
          · exact h1
        rw [collapseRuns_cons, if_pos rfl,
          List.dropWhile_cons_of_neg (by simpa using hdt),
          ih (noDoubled_tail h)]
    · rw [collapseRuns_cons, if_neg hct, ih (noDoubled_tail h)]

/-- Collapsing runs of a *different* character `u` cannot create a
doubled `t`: a `t` before the run and a `t` after it stay separated by
the single `u` that remains. -/
lemma noDoubled_collapseRuns_other {t u : Char} (htu : t ≠ u)
    {l : List Char} (h : noDoubled t l) :
    noDoubled t (collapseRuns u l) := by
  induction l using collapseRuns.induct u with
  | case1 => rw [collapseRuns_nil]; trivial
  | case2 cs ih =>
    rw [collapseRuns_cons, if_pos rfl]
    have hdw : noDoubled t (cs.dropWhile (fun d => d = u)) :=
      noDoubled_suffix (List.dropWhile_suffix _) (noDoubled_tail h)
    exact noDoubled_cons (ih hdw) fun d ds _ => Or.inl (Ne.symm htu)
  | case3 c cs hc ih =>
    rw [collapseRuns_cons, if_neg hc]
    refine noDoubled_cons (ih (noDoubled_tail h)) fun d ds heq => ?_
    cases cs with
    | nil => simp [collapseRuns] at heq
    | cons d' ds' =>
      rw [collapseRuns_cons, List.cons.injEq] at heq
      rcases h.1 with h1 | h1
      · exact Or.inl h1
      · exact Or.inr (heq.1 ▸ h1)

/-- **C10**: the output of `clean_text` holds only printable
characters, no doubled space and no doubled newline, and consequently
`clean_text` is idempotent. -/
theorem clean_text_idempotent (text : List Char) :
    (∀ c ∈ clean_text text, inPrintable c = true) ∧
      noDoubled ' ' (clean_text text) ∧
      noDoubled '\n' (clean_text text) ∧
      clean_text (clean_text text) = clean_text text := by
  have hprint : ∀ c ∈ clean_text text, inPrintable c = true := by
    intro c hc
    have hx : c ∈ text.map fun c => if inPrintable c then c else ' ' :=
      mem_collapseRuns (mem_collapseRuns hc)
    obtain ⟨c₀, _, rfl⟩ := List.mem_map.mp hx
    by_cases h0 : inPrintable c₀
    · simp [h0]
    · simp [h0]
      decide
  have hsp : noDoubled ' ' (clean_text text) :=
    noDoubled_collapseRuns_other (by decide)
      (noDoubled_collapseRuns ' ' _)
  have hnl : noDoubled '\n' (clean_text text) :=
    noDoubled_collapseRuns '\n' _
  refine ⟨hprint, hsp, hnl, ?_⟩
  have hmap : (clean_text text).map
      (fun c => if inPrintable c then c else ' ') = clean_text text := by
    rw [List.map_congr_left fun c hc => if_pos (hprint c hc)]
    exact List.map_id _
  show collapseRuns '\n' (collapseRuns ' ' ((clean_text text).map _)) = _
  rw [hmap, collapseRuns_of_noDoubled hsp, collapseRuns_of_noDoubled hnl]

end A10
